import Mathlib

/-!
Verification of the nanoclaw-sidecar HTTP-to-IPC bridge (src/main.py).

The module is a single FastAPI application with two handlers:
a liveness check (`GET /health`) and `POST /send`, which resolves a
group name to a WhatsApp JID through a configuration mapping loaded
once at startup and writes one JSON IPC file into
`<base>/ipc/main/messages`.

The embedding below models:
  * the configuration (`Config`: base data directory, group mapping,
    default group) read from the environment at module load;
  * the filesystem state the handler observes (`FS`: whether the IPC
    messages directory exists, plus a path-to-content file map);
  * Python dictionary lookup (`dictGet`, last binding wins as in a
    dict built from JSON);
  * `json.dumps` with its default settings (sort_keys off, separators
    `", "` and `": "`, ensure_ascii on) for flat string-to-string
    objects, and a `json.loads`-style parser for the same fragment;
  * the `send` handler itself, including the exact order of its
    checks: group lookup (404) before directory check (503).
-/

/-- Lookup in a Python dict built from a JSON object: the last binding
for a key wins (later duplicate keys overwrite earlier ones). -/
def dictGet {α : Type} (m : List (String × α)) (k : String) : Option α :=
  match m with
  | [] => none
  | (k', v) :: rest =>
    match dictGet rest k with
    | some r => some r
    | none => if k = k' then some v else none

/-- Request body for POST /send: `message : str` (required),
`group : str | None = None` (optional), as declared by the pydantic
model `SendRequest` in src/main.py. -/
structure SendRequest where
  message : String
  group : Option String
  deriving DecidableEq, Repr

/-- Module-level configuration of src/main.py: `_DATA_DIR`,
`_GROUPS` (the mapping loaded by `_load_groups`), `_DEFAULT_GROUP`. -/
structure Config where
  dataDir : String
  groups : List (String × String)
  defaultGroup : String
  deriving DecidableEq, Repr

/-- The filesystem state the handler observes: whether
`<base>/ipc/main/messages` exists, and the files (path, content)
present. -/
structure FS where
  ipcDirExists : Bool
  files : List (String × String)
  deriving DecidableEq, Repr

/-- Outcome of a request handler: a 200 JSON body
`{"ok": True, "file": path}` or an HTTPException with a status code
and a detail string. -/
inductive SendResult where
  | ok (file : String)
  | httpError (status : Nat) (detail : String)
  deriving DecidableEq, Repr

/-- Content of the file at `path`, if present. -/
def getFile (files : List (String × String)) (path : String) : Option String :=
  match files with
  | [] => none
  | (p, c) :: rest => if p = path then some c else getFile rest path

/-- `Path.write_text`: create the file, or replace its content if a
file with that path already exists. -/
def setFile (files : List (String × String)) (path content : String) :
    List (String × String) :=
  match files with
  | [] => [(path, content)]
  | (p, c) :: rest =>
    if p = path then (path, content) :: rest else (p, c) :: setFile rest path content

/-- Hexadecimal digit as produced by Python `%04x` formatting
(lowercase), used by json.dumps for `\uXXXX` escapes. -/
def hexDig (n : Nat) : Char :=
  match n with
  | 0 => '0' | 1 => '1' | 2 => '2' | 3 => '3'
  | 4 => '4' | 5 => '5' | 6 => '6' | 7 => '7'
  | 8 => '8' | 9 => '9' | 10 => 'a' | 11 => 'b'
  | 12 => 'c' | 13 => 'd' | 14 => 'e' | _ => 'f'

/-- Four lowercase hex digits of `n < 0x10000`. -/
def hex4 (n : Nat) : List Char :=
  [hexDig (n / 4096 % 16), hexDig (n / 256 % 16), hexDig (n / 16 % 16), hexDig (n % 16)]

/-- Escape of a single character as emitted by json.dumps with
ensure_ascii (the default): the two-character escapes of ESCAPE_DCT,
printable ASCII verbatim, and `\uXXXX` otherwise, with a surrogate
pair for characters beyond the Basic Multilingual Plane. -/
def escChar (c : Char) : List Char :=
  if c = '\\' then ['\\', '\\']
  else if c = '"' then ['\\', '"']
  else if c.toNat = 8 then ['\\', 'b']
  else if c.toNat = 9 then ['\\', 't']
  else if c.toNat = 10 then ['\\', 'n']
  else if c.toNat = 12 then ['\\', 'f']
  else if c.toNat = 13 then ['\\', 'r']
  else if 0x20 ≤ c.toNat ∧ c.toNat ≤ 0x7e then [c]
  else if c.toNat < 0x10000 then '\\' :: 'u' :: hex4 c.toNat
  else
    ('\\' :: 'u' :: hex4 (0xd800 + (c.toNat - 0x10000) / 0x400)) ++
      ('\\' :: 'u' :: hex4 (0xdc00 + (c.toNat - 0x10000) % 0x400))

/-- Escape every character of a string body. -/
def escList (l : List Char) : List Char :=
  match l with
  | [] => []
  | c :: cs => escChar c ++ escList cs

/-- A JSON string literal for `s`, as json.dumps emits it. -/
def encodeStrChars (s : String) : List Char :=
  '"' :: escList s.data ++ ['"']

/-- One `"key": "value"` member with json.dumps default
key separator `": "`. -/
def memberChars (k v : String) : List Char :=
  encodeStrChars k ++ ':' :: ' ' :: encodeStrChars v

/-- Members joined with the json.dumps default item separator `", "`. -/
def membersChars (ms : List (String × String)) : List Char :=
  match ms with
  | [] => []
  | [(k, v)] => memberChars k v
  | (k, v) :: rest => memberChars k v ++ ',' :: ' ' :: membersChars rest

/-- json.dumps of a flat dict with string keys and values, in
insertion order, with default separators. -/
def dumps (ms : List (String × String)) : String :=
  String.mk ('{' :: membersChars ms ++ ['}'])

/-- The IPC payload dict built by `send`:
`{"type": "message", "chatJid": jid, "text": text}` in insertion
order. -/
def messagePayload (jid text : String) : List (String × String) :=
  [("type", "message"), ("chatJid", jid), ("text", text)]

/-- The effective group of a request:
`group_name = req.group or _DEFAULT_GROUP`. Python `or` falls back to
the default both when `group` is absent (None) and when it is the
empty string, since the empty string is falsy. -/
def effectiveGroup (cfg : Config) (req : SendRequest) : String :=
  match req.group with
  | some g => if g = "" then cfg.defaultGroup else g
  | none => cfg.defaultGroup

/-- The POST /send handler of src/main.py. Checks, in order: group
lookup in the loaded mapping (404 on failure), existence of the IPC
messages directory (503 on failure); then writes the payload to
`webhook-<nowMs>.json` and returns the full path. -/
def send (cfg : Config) (fs : FS) (nowMs : Nat) (req : SendRequest) :
    SendResult × FS :=
  let group_name := effectiveGroup cfg req
  match dictGet cfg.groups group_name with
  | none =>
    (.httpError 404 ("Group \x27" ++ group_name ++ "\x27 not found in groups config"), fs)
  | some jid =>
    if fs.ipcDirExists = false then
      (.httpError 503 "IPC messages directory does not exist", fs)
    else
      let filename := "webhook-" ++ toString nowMs ++ ".json"
      let ipcFile := cfg.dataDir ++ "/ipc/main/messages/" ++ filename
      let content := dumps (messagePayload jid req.message)
      (.ok ipcFile, { fs with files := setFile fs.files ipcFile content })

/-- Value of a hexadecimal digit character, as json.loads accepts it
(both cases). -/
def hexVal (c : Char) : Option Nat :=
  if 48 ≤ c.toNat ∧ c.toNat ≤ 57 then some (c.toNat - 48)
  else if 97 ≤ c.toNat ∧ c.toNat ≤ 102 then some (c.toNat - 87)
  else if 65 ≤ c.toNat ∧ c.toNat ≤ 70 then some (c.toNat - 55)
  else none

/-- Reads exactly four hex digits, as json.loads does after `\u`. -/
def readHex4 (l : List Char) : Option (Nat × List Char) :=
  match l with
  | h1 :: h2 :: h3 :: h4 :: r =>
    match hexVal h1, hexVal h2, hexVal h3, hexVal h4 with
    | some a, some b, some c, some d => some (a * 4096 + b * 256 + c * 16 + d, r)
    | _, _, _, _ => none
  | _ => none

/-- The character named by a two-character escape, as json.loads
accepts them. -/
def decodeEsc (e : Char) : Option Char :=
  if e = '"' then some '"'
  else if e = '\\' then some '\\'
  else if e = '/' then some '/'
  else if e = 'b' then some (Char.ofNat 8)
  else if e = 't' then some (Char.ofNat 9)
  else if e = 'n' then some (Char.ofNat 10)
  else if e = 'f' then some (Char.ofNat 12)
  else if e = 'r' then some (Char.ofNat 13)
  else none

/-- Continuation of `\uXXXX` decoding when the first value is a high
surrogate: json.loads then requires a second `\uXXXX` escape holding
a low surrogate and combines the pair into one character. -/
def parseLowSurrogate (n : Nat) (l : List Char) : Option (Char × List Char) :=
  match l with
  | '\\' :: 'u' :: r3 =>
    match readHex4 r3 with
    | some (m, r4) =>
      if 0xdc00 ≤ m ∧ m ≤ 0xdfff then
        some (Char.ofNat (0x10000 + (n - 0xd800) * 0x400 + (m - 0xdc00)), r4)
      else none
    | none => none
  | _ => none

/-- Decodes the hex part of a `\uXXXX` escape, combining a
high/low surrogate pair into one character as json.loads does. A lone
surrogate (which Python would keep as an unpaired code unit,
something a Unicode-scalar string cannot hold) makes the parse
fail. -/
def parseUEscape (l : List Char) : Option (Char × List Char) :=
  match readHex4 l with
  | none => none
  | some (n, r2) =>
    if 0xd800 ≤ n ∧ n ≤ 0xdbff then parseLowSurrogate n r2
    else if 0xdc00 ≤ n ∧ n ≤ 0xdfff then none
    else some (Char.ofNat n, r2)

/-- Body of a JSON string literal after the opening quote, as
json.loads scans it: plain characters up to the closing quote, the
two-character escapes, and `\uXXXX` escapes. Returns the decoded
characters and the input after the closing quote. The fuel argument
is an upper bound on the number of decoded characters; every decoded
character consumes at least one input character, so callers pass one
more than the length of the input and the bound never binds. -/
def parseStringBody : Nat → List Char → Option (List Char × List Char)
  | 0, _ => none
  | _, [] => none
  | fuel + 1, c :: rest =>
    if c = '"' then some ([], rest)
    else if c = '\\' then
      match rest with
      | [] => none
      | 'u' :: r =>
        match parseUEscape r with
        | none => none
        | some (d, r2) => (parseStringBody fuel r2).map (fun p => (d :: p.1, p.2))
      | e :: r =>
        match decodeEsc e with
        | none => none
        | some d => (parseStringBody fuel r).map (fun p => (d :: p.1, p.2))
    else (parseStringBody fuel rest).map (fun p => (c :: p.1, p.2))

/-- Skip JSON whitespace, as json.loads does between tokens. -/
def skipWs (l : List Char) : List Char :=
  match l with
  | [] => []
  | c :: r =>
    if c = ' ' ∨ c.toNat = 9 ∨ c.toNat = 10 ∨ c.toNat = 13 then skipWs r
    else c :: r

/-- One `"key": "value"` member of a flat string-valued JSON object,
with surrounding whitespace, as json.loads scans it. -/
def parseOneMember (l : List Char) : Option ((String × String) × List Char) :=
  match skipWs l with
  | '"' :: r =>
    match parseStringBody (r.length + 1) r with
    | none => none
    | some (k, r2) =>
      match skipWs r2 with
      | ':' :: r3 =>
        match skipWs r3 with
        | '"' :: r4 =>
          match parseStringBody (r4.length + 1) r4 with
          | none => none
          | some (v, r5) => some ((String.mk k, String.mk v), r5)
        | _ => none
      | _ => none
  | _ => none

/-- Members of a flat string-valued JSON object after the opening
brace, as json.loads scans them: members separated by `,` until the
closing brace. The fuel argument only bounds the number of members;
callers pass one more than the length of the input, which every
member consumes at least one character of. -/
def parseMembersF : Nat → List Char → Option (List (String × String) × List Char)
  | 0, _ => none
  | fuel + 1, l =>
    match parseOneMember l with
    | none => none
    | some (kv, r) =>
      match skipWs r with
      | '}' :: r2 => some ([kv], r2)
      | ',' :: r2 =>
        match parseMembersF fuel r2 with
        | some (ms, r3) => some (kv :: ms, r3)
        | none => none
      | _ => none

/-- json.loads restricted to the on-disk contract of this service: a
flat JSON object whose keys and values are strings
(`{"type":"message","chatJid":"...","text":"..."}` and the operator's
groups.json both have this shape). Yields the members in document
order; fails on any other document. -/
def loadsObj (s : String) : Option (List (String × String)) :=
  match skipWs s.data with
  | '{' :: r =>
    match skipWs r with
    | '}' :: r2 => if skipWs r2 = [] then some [] else none
    | _ =>
      match parseMembersF (r.length + 1) r with
      | some (ms, rest) => if skipWs rest = [] then some ms else none
      | none => none
  | _ => none

/-- The configuration loader `_load_groups` of src/main.py. The file
at `_GROUPS_CONFIG` is abstracted as `none` (does not exist) or
`some txt` (exists with content `txt`); the result is `none` when
`json.loads` raises. A missing file yields the empty mapping rather
than an error; an existing file is parsed as a flat JSON object of
string-to-string pairs. -/
def load_groups (groupsConfigFile : Option String) :
    Option (List (String × String)) :=
  match groupsConfigFile with
  | none => some []
  | some txt => loadsObj txt

/-- A JSON value in a request body field, as far as validation
distinguishes them: a string, null, or anything else. -/
inductive JVal where
  | jstr (s : String)
  | jnull
  | jother
  deriving DecidableEq, Repr

/-- Modelled from the spec: the transport-layer validation that
FastAPI/pydantic performs against the declared `SendRequest` model is
framework code outside this repository. Following the declaration
(`message : str`, `group : str | None = None`) and §7 of the spec
(required field absent or wrong type yields a validation error),
`message` must be present as a string; `group` may be absent, null,
or a string. -/
def validateSendRequest (body : List (String × JVal)) : Option SendRequest :=
  match dictGet body "message" with
  | some (.jstr m) =>
    match dictGet body "group" with
    | none => some ⟨m, none⟩
    | some .jnull => some ⟨m, none⟩
    | some (.jstr g) => some ⟨m, some g⟩
    | some .jother => none
  | _ => none

/-- Response body of GET /health. -/
structure HealthResponse where
  ok : Bool
  deriving DecidableEq, Repr

/-- The whole observable state a handler runs against: the module
configuration (`_DATA_DIR`, `_GROUPS`, `_DEFAULT_GROUP`) and the
filesystem. -/
structure AppState where
  cfg : Config
  fs : FS
  deriving DecidableEq, Repr

/-- The GET /health handler: returns `{"ok": True}` and touches
nothing. -/
def health (st : AppState) : HealthResponse × AppState :=
  ({ ok := true }, st)

/-- The send handler acting on the whole application state: only the
filesystem component can change. -/
def sendHandler (st : AppState) (nowMs : Nat) (req : SendRequest) :
    SendResult × AppState :=
  let r := send st.cfg st.fs nowMs req
  (r.1, { st with fs := r.2 })

/-- POST /send including the transport layer: a body that fails
validation is rejected with 422 before the handler runs; otherwise
the handler runs on the validated request. -/
def handleSend (st : AppState) (nowMs : Nat) (body : List (String × JVal)) :
    SendResult × AppState :=
  match validateSendRequest body with
  | none => (.httpError 422 "validation error", st)
  | some req => sendHandler st nowMs req

/-- Frame property of `setFile`: the written path holds the new
content, every other path is untouched. -/
theorem getFile_setFile (files : List (String × String)) (p c q : String) :
    getFile (setFile files p c) q = if q = p then some c else getFile files q := by
  induction files with
  | nil =>
    by_cases h : q = p
    · subst h; simp [setFile, getFile]
    · simp only [setFile, getFile, if_neg h, if_neg (Ne.symm h)]
  | cons hd tl ih =>
    obtain ⟨hp, hc⟩ := hd
    by_cases h1 : hp = p
    · subst h1
      by_cases h : q = hp
      · subst h; simp [setFile, getFile]
      · simp only [setFile, if_pos rfl, getFile, if_neg h, if_neg (Ne.symm h)]
    · by_cases h : q = hp
      · subst h
        simp [setFile, getFile, h1]
      · simp only [setFile, if_neg h1, getFile, if_neg (Ne.symm h), ih]

/-- A character is a Unicode scalar value: below the surrogate range
or strictly between it and 0x110000. -/
theorem char_valid_ranges (c : Char) :
    c.toNat < 0xd800 ∨ (0xdfff < c.toNat ∧ c.toNat < 0x110000) := c.valid

/-- Decoding a produced hex digit gives the digit back. -/
theorem hexVal_hexDig (n : Nat) (h : n < 16) : hexVal (hexDig n) = some n := by
  interval_cases n <;> decide

/-- Reading back four produced hex digits yields the encoded value. -/
theorem readHex4_hex4 (n : Nat) (hn : n < 0x10000) (r : List Char) :
    readHex4 (hex4 n ++ r) = some (n, r) := by
  have e1 := hexVal_hexDig (n / 4096 % 16) (Nat.mod_lt _ (by omega))
  have e2 := hexVal_hexDig (n / 256 % 16) (Nat.mod_lt _ (by omega))
  have e3 := hexVal_hexDig (n / 16 % 16) (Nat.mod_lt _ (by omega))
  have e4 := hexVal_hexDig (n % 16) (Nat.mod_lt _ (by omega))
  simp [hex4, readHex4, e1, e2, e3, e4]
  omega

/-- Decoding a produced low-surrogate escape after a high surrogate
combines the pair. -/
theorem parseLowSurrogate_pair (n m : Nat) (hm : m < 0x10000)
    (h3 : 0xdc00 ≤ m) (h4 : m ≤ 0xdfff) (r : List Char) :
    parseLowSurrogate n ('\\' :: 'u' :: (hex4 m ++ r)) =
      some (Char.ofNat (0x10000 + (n - 0xd800) * 0x400 + (m - 0xdc00)), r) := by
  rw [parseLowSurrogate, readHex4_hex4 m hm r]
  simp only [if_pos (And.intro h3 h4)]

/-- Decoding a produced BMP escape yields the encoded character. -/
theorem parseUEscape_bmp (n : Nat) (hn : n < 0x10000)
    (hs : ¬(0xd800 ≤ n ∧ n ≤ 0xdfff)) (r : List Char) :
    parseUEscape (hex4 n ++ r) = some (Char.ofNat n, r) := by
  have h4 := readHex4_hex4 n hn r
  have c1 : ¬(0xd800 ≤ n ∧ n ≤ 0xdbff) := by omega
  have c2 : ¬(0xdc00 ≤ n ∧ n ≤ 0xdfff) := by omega
  rw [parseUEscape.eq_def, h4]
  simp only [if_neg c1, if_neg c2]

/-- Decoding a produced surrogate pair yields the encoded character. -/
theorem parseUEscape_pair (n m v : Nat) (hn1 : 0xd800 ≤ n) (hn2 : n ≤ 0xdbff)
    (hm : m < 0x10000) (h3 : 0xdc00 ≤ m) (h4 : m ≤ 0xdfff)
    (hv : 0x10000 + (n - 0xd800) * 0x400 + (m - 0xdc00) = v) (r : List Char) :
    parseUEscape (hex4 n ++ ('\\' :: 'u' :: (hex4 m ++ r))) = some (Char.ofNat v, r) := by
  subst hv
  rw [parseUEscape.eq_def, readHex4_hex4 n (by omega) _]
  simp only [if_pos (And.intro hn1 hn2)]
  exact parseLowSurrogate_pair n m hm h3 h4 r

/-- One scanner step on a two-character escape. -/
theorem psb_twochar (fuel : Nat) (e d : Char) (tl : List Char)
    (he : ¬e = 'u') (hd : decodeEsc e = some d) :
    parseStringBody (fuel + 1) ('\\' :: e :: tl) =
      (parseStringBody fuel tl).map (fun p => (d :: p.1, p.2)) := by
  rw [parseStringBody.eq_def]
  simp [he, hd]

/-- One scanner step on an unescaped character. -/
theorem psb_plain (fuel : Nat) (c : Char) (tl : List Char)
    (h1 : ¬c = '"') (h2 : ¬c = '\\') :
    parseStringBody (fuel + 1) (c :: tl) =
      (parseStringBody fuel tl).map (fun p => (c :: p.1, p.2)) := by
  rw [parseStringBody.eq_def]
  simp [h1, h2]

/-- One scanner step on a `\uXXXX` escape. -/
theorem psb_uescape (fuel : Nat) (tl2 : List Char) (d : Char) (r2 : List Char)
    (h : parseUEscape tl2 = some (d, r2)) :
    parseStringBody (fuel + 1) ('\\' :: 'u' :: tl2) =
      (parseStringBody fuel r2).map (fun p => (d :: p.1, p.2)) := by
  rw [parseStringBody.eq_def]
  simp [h]

/-- Scanning the escape of any character yields that character back:
the per-character encode/decode round trip. -/
theorem parseStringBody_escChar (fuel : Nat) (c : Char) (tl : List Char) :
    parseStringBody (fuel + 1) (escChar c ++ tl) =
      (parseStringBody fuel tl).map (fun p => (c :: p.1, p.2)) := by
  have hval := char_valid_ranges c
  rw [escChar]
  split_ifs with h1 h2 h3 h4 h5 h6 h7 h8 h9
  · subst h1
    exact psb_twochar fuel '\\' '\\' tl (by decide) (by decide)
  · subst h2
    exact psb_twochar fuel '"' '"' tl (by decide) (by decide)
  · have hc : c = Char.ofNat 8 := by rw [← h3, Char.ofNat_toNat]
    subst hc
    exact psb_twochar fuel 'b' (Char.ofNat 8) tl (by decide) (by decide)
  · have hc : c = Char.ofNat 9 := by rw [← h4, Char.ofNat_toNat]
    subst hc
    exact psb_twochar fuel 't' (Char.ofNat 9) tl (by decide) (by decide)
  · have hc : c = Char.ofNat 10 := by rw [← h5, Char.ofNat_toNat]
    subst hc
    exact psb_twochar fuel 'n' (Char.ofNat 10) tl (by decide) (by decide)
  · have hc : c = Char.ofNat 12 := by rw [← h6, Char.ofNat_toNat]
    subst hc
    exact psb_twochar fuel 'f' (Char.ofNat 12) tl (by decide) (by decide)
  · have hc : c = Char.ofNat 13 := by rw [← h7, Char.ofNat_toNat]
    subst hc
    exact psb_twochar fuel 'r' (Char.ofNat 13) tl (by decide) (by decide)
  · exact psb_plain fuel c tl h2 h1
  · have hs : ¬(0xd800 ≤ c.toNat ∧ c.toNat ≤ 0xdfff) := by omega
    have hp := parseUEscape_bmp c.toNat h9 hs tl
    rw [Char.ofNat_toNat] at hp
    exact psb_uescape fuel (hex4 c.toNat ++ tl) c tl hp
  · have hp := parseUEscape_pair (0xd800 + (c.toNat - 0x10000) / 0x400)
        (0xdc00 + (c.toNat - 0x10000) % 0x400) c.toNat
        (by omega) (by omega) (by omega) (by omega) (by omega) (by omega) tl
    rw [Char.ofNat_toNat] at hp
    exact psb_uescape fuel _ c tl hp

/-- Every escape produces at least one character. -/
theorem escChar_length_pos (c : Char) : 1 ≤ (escChar c).length := by
  rw [escChar]
  split_ifs <;> simp [hex4]

/-- Escaping never shortens a string. -/
theorem escList_length_ge (l : List Char) : l.length ≤ (escList l).length := by
  induction l with
  | nil => simp [escList]
  | cons c cs ih =>
    rw [escList]
    simp only [List.length_append, List.length_cons]
    have := escChar_length_pos c
    omega

/-- Scanning an encoded string body up to its closing quote yields
the original characters, for any sufficient fuel. -/
theorem parseStringBody_escList (l : List Char) : ∀ (fuel : Nat) (rest : List Char),
    l.length + 1 ≤ fuel →
    parseStringBody fuel (escList l ++ '"' :: rest) = some (l, rest) := by
  induction l with
  | nil =>
    intro fuel rest h
    obtain ⟨f, rfl⟩ : ∃ f, fuel = f + 1 := ⟨fuel - 1, by omega⟩
    rw [parseStringBody.eq_def]
    simp [escList]
  | cons c cs ih =>
    intro fuel rest h
    obtain ⟨f, rfl⟩ : ∃ f, fuel = f + 1 := ⟨fuel - 1, by omega⟩
    have hlen : cs.length + 1 ≤ f := by
      simp only [List.length_cons] at h
      omega
    rw [escList, List.append_assoc, parseStringBody_escChar, ih f rest hlen]
    rfl

/-- Skipping whitespace leaves a non-whitespace head alone. -/
theorem skipWs_not_ws (c : Char) (l : List Char)
    (h : ¬(c = ' ' ∨ c.toNat = 9 ∨ c.toNat = 10 ∨ c.toNat = 13)) :
    skipWs (c :: l) = c :: l := by
  rw [skipWs]
  simp [h]

/-- Skipping whitespace consumes a leading space. -/
theorem skipWs_space (l : List Char) : skipWs (' ' :: l) = skipWs l := by
  rw [skipWs]
  simp

/-- Parsing a serialized member yields the key/value pair. -/
theorem parseOneMember_encode (k v : String) (rest : List Char) :
    parseOneMember (memberChars k v ++ rest) = some ((k, v), rest) := by
  have hq : ¬(('"' : Char) = ' ' ∨ ('"' : Char).toNat = 9 ∨ ('"' : Char).toNat = 10 ∨
      ('"' : Char).toNat = 13) := by decide
  have hcol : ¬((':' : Char) = ' ' ∨ (':' : Char).toNat = 9 ∨ (':' : Char).toNat = 10 ∨
      (':' : Char).toNat = 13) := by decide
  simp only [memberChars, encodeStrChars, List.append_assoc, List.cons_append]
  rw [parseOneMember.eq_def]
  rw [skipWs_not_ws _ _ hq]
  simp only [List.nil_append]
  rw [parseStringBody_escList k.data _ _ (by
    simp only [List.length_append, List.length_cons]
    have := escList_length_ge k.data
    omega)]
  simp only []
  rw [skipWs_not_ws _ _ hcol]
  simp only []
  rw [skipWs_space, skipWs_not_ws _ _ hq]
  simp only []
  rw [parseStringBody_escList v.data _ _ (by
    simp only [List.length_append, List.length_cons]
    have := escList_length_ge v.data
    omega)]

/-- A leading space does not affect member parsing. -/
theorem parseOneMember_space (l : List Char) :
    parseOneMember (' ' :: l) = parseOneMember l := by
  conv_lhs => rw [parseOneMember.eq_def]
  conv_rhs => rw [parseOneMember.eq_def]
  rw [skipWs_space]

/-- A leading space does not affect members parsing. -/
theorem parseMembersF_space (fuel : Nat) (l : List Char) :
    parseMembersF fuel (' ' :: l) = parseMembersF fuel l := by
  cases fuel with
  | zero => rfl
  | succ f =>
    conv_lhs => rw [parseMembersF]
    conv_rhs => rw [parseMembersF]
    rw [parseOneMember_space]

/-- Serialized-member parsing, stated on the flattened character
stream a serialized document reduces to. -/
theorem parseOneMember_encode2 (k v : String) (rest : List Char) :
    parseOneMember
      ('"' :: (escList k.data ++ '"' :: ':' :: ' ' :: '"' :: (escList v.data ++ '"' :: rest))) =
      some ((k, v), rest) := by
  have h := parseOneMember_encode k v rest
  simpa [memberChars, encodeStrChars, List.append_assoc, List.cons_append] using h

/-- The last member of an object, followed by the closing brace. -/
theorem parseMembersF_last2 (fuel : Nat) (k v : String) (rest : List Char) :
    parseMembersF (fuel + 1)
      ('"' :: (escList k.data ++ '"' :: ':' :: ' ' :: '"' :: (escList v.data ++ '"' :: '}' :: rest))) =
      some ([(k, v)], rest) := by
  rw [parseMembersF]
  rw [parseOneMember_encode2 k v ('}' :: rest)]
  simp only []
  rw [skipWs_not_ws '}' rest (by decide)]
  rfl

/-- A non-final member, followed by the item separator. -/
theorem parseMembersF_cons2 (fuel : Nat) (k v : String) (ms : List (String × String))
    (T rest : List Char) (h : parseMembersF fuel T = some (ms, rest)) :
    parseMembersF (fuel + 1)
      ('"' :: (escList k.data ++ '"' :: ':' :: ' ' :: '"' :: (escList v.data ++ '"' :: ',' :: ' ' :: T))) =
      some ((k, v) :: ms, rest) := by
  rw [parseMembersF]
  rw [parseOneMember_encode2 k v (',' :: ' ' :: T)]
  simp only []
  rw [skipWs_not_ws ',' _ (by decide)]
  simp only []
  rw [parseMembersF_space, h]

/-- A serialized three-member object parses back to its members. -/
theorem parseMembersF_three (k1 v1 k2 v2 k3 v3 : String) (rest : List Char)
    (fuel : Nat) (hf : 3 ≤ fuel) :
    parseMembersF fuel
      ('"' :: (escList k1.data ++ '"' :: ':' :: ' ' :: '"' :: (escList v1.data ++ '"' :: ',' :: ' ' ::
       ('"' :: (escList k2.data ++ '"' :: ':' :: ' ' :: '"' :: (escList v2.data ++ '"' :: ',' :: ' ' ::
        ('"' :: (escList k3.data ++ '"' :: ':' :: ' ' :: '"' :: (escList v3.data ++ '"' :: '}' :: rest))))))))) =
      some ([(k1, v1), (k2, v2), (k3, v3)], rest) := by
  obtain ⟨f, rfl⟩ : ∃ f, fuel = f + 3 := ⟨fuel - 3, by omega⟩
  have h3 := parseMembersF_last2 f k3 v3 rest
  have h2 := parseMembersF_cons2 (f + 1) k2 v2 _ _ _ h3
  exact parseMembersF_cons2 (f + 2) k1 v1 _ _ _ h2

/-- Serializing the IPC payload and parsing the result reproduces the
payload exactly, for arbitrary jid and message text. -/
theorem loadsObj_dumps (jid text : String) :
    loadsObj (dumps (messagePayload jid text)) = some (messagePayload jid text) := by
  rw [loadsObj.eq_def]
  simp only [messagePayload, dumps, membersChars, memberChars, encodeStrChars,
    List.append_assoc, List.cons_append, List.nil_append]
  rw [skipWs_not_ws '{' _ (by decide)]
  simp only []
  rw [skipWs_not_ws '"' _ (by decide)]
  rw [parseMembersF_three "type" "message" "chatJid" jid "text" text [] _ (by
    simp only [List.length_append, List.length_cons]
    omega)]
  rfl

/-- C3 (counterexample): with mapping `"dev" -> "j"` and default
group `"dev"`, a request whose `group` field is present as the empty
string is resolved to the default group `"dev"`, not to the present
field value `""` as the claim requires for every present field. -/
theorem effectiveGroup_empty_present_cex :
    (⟨"hi", some ""⟩ : SendRequest).group = some "" ∧
    effectiveGroup ⟨"/data", [("dev", "j")], "dev"⟩ ⟨"hi", some ""⟩ = "dev" ∧
    ("dev" : String) ≠ "" := by
  decide

/-- C3 (amended): the effective group is the request's `group` field
whenever that field is present and non-empty; when the field is
absent or present as the empty string, the configured default group
is used. -/
theorem effectiveGroup_spec (cfg : Config) (req : SendRequest) :
    (∀ g, req.group = some g → g ≠ "" → effectiveGroup cfg req = g) ∧
    (req.group = none ∨ req.group = some "" → effectiveGroup cfg req = cfg.defaultGroup) := by
  constructor
  · intro g hg hne
    simp [effectiveGroup, hg, hne]
  · intro h
    rcases h with h | h <;> simp [effectiveGroup, h]

/-- Witness for the amended C3 at a concrete request. -/
theorem effectiveGroup_spec_witness :
    effectiveGroup ⟨"/data", [("dev", "j")], "alerts"⟩ ⟨"hi", some "dev"⟩ = "dev" :=
  (effectiveGroup_spec ⟨"/data", [("dev", "j")], "alerts"⟩ ⟨"hi", some "dev"⟩).1
    "dev" rfl (by decide)

/-- C4: when the effective group is absent from the loaded mapping,
`send` fails with 404, the detail contains the offending group name,
and the filesystem is unchanged — whether or not the IPC directory
exists. -/
theorem send_unknown_group (cfg : Config) (fs : FS) (now : Nat) (req : SendRequest)
    (h : dictGet cfg.groups (effectiveGroup cfg req) = none) :
    (send cfg fs now req).1 =
      SendResult.httpError 404
        ("Group \x27" ++ effectiveGroup cfg req ++ "\x27 not found in groups config") ∧
    (∃ pre post, "Group \x27" ++ effectiveGroup cfg req ++ "\x27 not found in groups config" =
      pre ++ effectiveGroup cfg req ++ post) ∧
    (send cfg fs now req).2 = fs := by
  refine ⟨?_, ⟨"Group \x27", "\x27 not found in groups config", rfl⟩, ?_⟩ <;>
    simp [send, h]

/-- Witness for C4 at a concrete unknown group. -/
theorem send_unknown_group_witness :
    (send ⟨"/data", [("dev", "j")], "dev"⟩ ⟨true, []⟩ 5 ⟨"m", some "nope"⟩).1 =
      SendResult.httpError 404
        ("Group \x27" ++
          effectiveGroup ⟨"/data", [("dev", "j")], "dev"⟩ ⟨"m", some "nope"⟩ ++
          "\x27 not found in groups config") :=
  (send_unknown_group ⟨"/data", [("dev", "j")], "dev"⟩ ⟨true, []⟩ 5 ⟨"m", some "nope"⟩
    (by decide)).1

/-- C6: omitting `group` and passing the configured default group
name produce identical results (response and filesystem alike). -/
theorem send_default_group_omitted (cfg : Config) (fs : FS) (now : Nat) (m : String) :
    send cfg fs now ⟨m, none⟩ = send cfg fs now ⟨m, some cfg.defaultGroup⟩ := by
  by_cases h : cfg.defaultGroup = "" <;> simp [send, effectiveGroup, h]

/-- C10: a `group` field present as the empty string behaves exactly
like an absent `group` field. -/
theorem send_empty_group_as_omitted (cfg : Config) (fs : FS) (now : Nat) (m : String) :
    send cfg fs now ⟨m, some ""⟩ = send cfg fs now ⟨m, none⟩ := by
  simp [send, effectiveGroup]

/-- C9: no handler modifies the configuration: /health touches
nothing at all, and /send (validated or raw) leaves the mapping, the
default group and the base directory unchanged. -/
theorem handlers_preserve_config (st : AppState) (now : Nat)
    (body : List (String × JVal)) (req : SendRequest) :
    (health st).2 = st ∧
    (sendHandler st now req).2.cfg = st.cfg ∧
    (handleSend st now body).2.cfg = st.cfg := by
  refine ⟨rfl, rfl, ?_⟩
  unfold handleSend
  cases validateSendRequest body <;> rfl

/-- C8: a missing groups file loads as the empty mapping rather than
an error (even though parsing empty content would fail), and an
existing file is parsed as a flat JSON object of string-to-string
pairs. -/
theorem load_groups_spec :
    load_groups none = some [] ∧
    loadsObj "" = none ∧
    ∀ txt, load_groups (some txt) = loadsObj txt :=
  ⟨rfl, rfl, fun _ => rfl⟩

/-- C7: a body whose `message` field is absent or not a string is
rejected by the validation layer with 422 and the state is
untouched. -/
theorem handleSend_invalid_message_422 (st : AppState) (now : Nat)
    (body : List (String × JVal))
    (h : ∀ s, dictGet body "message" ≠ some (JVal.jstr s)) :
    handleSend st now body = (SendResult.httpError 422 "validation error", st) := by
  have hv : validateSendRequest body = none := by
    unfold validateSendRequest
    cases hm : dictGet body "message" with
    | none => rfl
    | some v => cases v with
      | jstr s => exact absurd hm (h s)
      | jnull => rfl
      | jother => rfl
  simp [handleSend, hv]

/-- Witness for C7: a body with only a `group` field. -/
theorem handleSend_invalid_message_422_witness :
    handleSend ⟨⟨"/data", [("dev", "j")], "dev"⟩, ⟨true, []⟩⟩ 5 [("group", JVal.jstr "dev")] =
      (SendResult.httpError 422 "validation error",
        ⟨⟨"/data", [("dev", "j")], "dev"⟩, ⟨true, []⟩⟩) :=
  handleSend_invalid_message_422 ⟨⟨"/data", [("dev", "j")], "dev"⟩, ⟨true, []⟩⟩ 5
    [("group", JVal.jstr "dev")] (by intro s; simp [dictGet])

/-- C2 (counterexample): with the IPC directory missing AND an
unknown group, `send` returns 404, not 503 — the group check runs
first, so the claim that a missing directory yields 503 regardless
of group validity is false. -/
theorem send_missing_dir_cex :
    (⟨false, []⟩ : FS).ipcDirExists = false ∧
    (send ⟨"/data", [("dev", "j")], "dev"⟩ ⟨false, []⟩ 5 ⟨"m", some "nope"⟩).1 =
      SendResult.httpError 404 "Group \x27nope\x27 not found in groups config" ∧
    ∀ d, (send ⟨"/data", [("dev", "j")], "dev"⟩ ⟨false, []⟩ 5 ⟨"m", some "nope"⟩).1 ≠
      SendResult.httpError 503 d := by
  refine ⟨rfl, by decide, ?_⟩
  intro d h
  rw [show (send ⟨"/data", [("dev", "j")], "dev"⟩ ⟨false, []⟩ 5 ⟨"m", some "nope"⟩).1 =
      SendResult.httpError 404 "Group \x27nope\x27 not found in groups config" from by decide] at h
  injection h with h1 h2
  exact absurd h1 (by decide)

/-- C2 (amended): when the IPC messages directory does not exist, no
file is ever written (the filesystem is unchanged whatever the
group), and the failure is the 503 service-unavailable error whenever
the effective group is present in the mapping; an unknown group takes
the 404 path instead. -/
theorem send_missing_dir (cfg : Config) (fs : FS) (now : Nat) (req : SendRequest)
    (hdir : fs.ipcDirExists = false) :
    (send cfg fs now req).2 = fs ∧
    ∀ jid, dictGet cfg.groups (effectiveGroup cfg req) = some jid →
      (send cfg fs now req).1 =
        SendResult.httpError 503 "IPC messages directory does not exist" := by
  cases hj : dictGet cfg.groups (effectiveGroup cfg req) with
  | none =>
    refine ⟨by simp [send, hj], ?_⟩
    intro jid hjj
    exact Option.noConfusion hjj
  | some j =>
    refine ⟨by simp [send, hj, hdir], ?_⟩
    intro jid hjj
    simp [send, hj, hdir]

/-- Witness for the amended C2: known group, missing directory. -/
theorem send_missing_dir_witness :
    (send ⟨"/data", [("dev", "j")], "dev"⟩ ⟨false, []⟩ 5 ⟨"m", some "dev"⟩).2 =
      (⟨false, []⟩ : FS) :=
  (send_missing_dir ⟨"/data", [("dev", "j")], "dev"⟩ ⟨false, []⟩ 5 ⟨"m", some "dev"⟩ rfl).1

/-- C1 (counterexample): two failures of the unconditional claim. A
request for the configured group `"dev"` fails with 503 and writes
nothing when the IPC directory is missing; and when the mapping
contains the empty-string group name, a request for it is resolved
to the default group and fails with 404 even though the requested
name is present in the mapping. -/
theorem send_valid_group_cex :
    dictGet [("dev", "j")] "dev" = some "j" ∧
    (send ⟨"/data", [("dev", "j")], "dev"⟩ ⟨false, []⟩ 5 ⟨"m", some "dev"⟩).1 =
      SendResult.httpError 503 "IPC messages directory does not exist" ∧
    (send ⟨"/data", [("dev", "j")], "dev"⟩ ⟨false, []⟩ 5 ⟨"m", some "dev"⟩).2.files = [] ∧
    dictGet [("", "j2")] "" = some "j2" ∧
    (send ⟨"/data", [("", "j2")], "dev"⟩ ⟨true, []⟩ 5 ⟨"m", some ""⟩).1 =
      SendResult.httpError 404 "Group \x27dev\x27 not found in groups config" := by
  decide

/-- C1 (amended): for every non-empty group name mapped by the
configuration, provided the IPC messages directory exists, `send`
succeeds, returns the full path of the written file, and writes
exactly one file — the named path holds the serialized payload whose
`chatJid` is the configured identifier, and every other path is
untouched. -/
theorem send_valid_group (cfg : Config) (fs : FS) (now : Nat) (m g jid : String)
    (hg : g ≠ "") (hjid : dictGet cfg.groups g = some jid)
    (hdir : fs.ipcDirExists = true) :
    (send cfg fs now ⟨m, some g⟩).1 =
      SendResult.ok
        (cfg.dataDir ++ "/ipc/main/messages/" ++ ("webhook-" ++ toString now ++ ".json")) ∧
    getFile (send cfg fs now ⟨m, some g⟩).2.files
        (cfg.dataDir ++ "/ipc/main/messages/" ++ ("webhook-" ++ toString now ++ ".json")) =
      some (dumps (messagePayload jid m)) ∧
    ∀ q, q ≠ cfg.dataDir ++ "/ipc/main/messages/" ++ ("webhook-" ++ toString now ++ ".json") →
      getFile (send cfg fs now ⟨m, some g⟩).2.files q = getFile fs.files q := by
  have he : effectiveGroup cfg ⟨m, some g⟩ = g := by simp [effectiveGroup, hg]
  refine ⟨?_, ?_, ?_⟩
  · simp [send, he, hjid, hdir]
  · simp [send, he, hjid, hdir, getFile_setFile]
  · intro q hq
    simp [send, he, hjid, hdir, getFile_setFile, hq]

/-- Witness for the amended C1 at a concrete configuration. -/
theorem send_valid_group_witness :
    (send ⟨"/data", [("dev", "j")], "dev"⟩ ⟨true, []⟩ 5 ⟨"m", some "dev"⟩).1 =
      SendResult.ok ("/data" ++ "/ipc/main/messages/" ++ ("webhook-" ++ toString 5 ++ ".json")) :=
  (send_valid_group ⟨"/data", [("dev", "j")], "dev"⟩ ⟨true, []⟩ 5 "m" "dev" "j"
    (by decide) (by decide) rfl).1

/-- C5: every successful send writes a file whose JSON content, when
parsed, reproduces exactly the constructed payload
`messagePayload jid message` — serialization followed by parsing
round-trips. -/
theorem send_roundtrip (cfg : Config) (fs : FS) (now : Nat) (req : SendRequest)
    (path : String) (fs' : FS)
    (h : send cfg fs now req = (SendResult.ok path, fs')) :
    ∃ jid, dictGet cfg.groups (effectiveGroup cfg req) = some jid ∧
      getFile fs'.files path = some (dumps (messagePayload jid req.message)) ∧
      loadsObj (dumps (messagePayload jid req.message)) =
        some (messagePayload jid req.message) := by
  cases hj : dictGet cfg.groups (effectiveGroup cfg req) with
  | none => simp [send, hj] at h
  | some jid =>
    cases hdir : fs.ipcDirExists with
    | false => simp [send, hj, hdir] at h
    | true =>
      simp [send, hj, hdir] at h
      obtain ⟨h1, h2⟩ := h
      refine ⟨jid, rfl, ?_, loadsObj_dumps jid req.message⟩
      subst h1
      rw [← h2]
      simp [getFile_setFile]

/-- Witness for C5 at a concrete successful send. -/
theorem send_roundtrip_witness :
    ∃ jid, dictGet [("dev", "j")]
        (effectiveGroup ⟨"/data", [("dev", "j")], "dev"⟩ ⟨"m", some "dev"⟩) = some jid ∧
      getFile [("/data/ipc/main/messages/webhook-5.json", dumps (messagePayload "j" "m"))]
        "/data/ipc/main/messages/webhook-5.json" = some (dumps (messagePayload jid "m")) ∧
      loadsObj (dumps (messagePayload jid "m")) = some (messagePayload jid "m") :=
  send_roundtrip ⟨"/data", [("dev", "j")], "dev"⟩ ⟨true, []⟩ 5 ⟨"m", some "dev"⟩
    "/data/ipc/main/messages/webhook-5.json"
    ⟨true, [("/data/ipc/main/messages/webhook-5.json", dumps (messagePayload "j" "m"))]⟩
    (by decide)
